import Mathlib

/-
  Verification development for the luci-app-2fa repository.

  Strings from the ucode sources are embedded as lists of byte values
  (List Nat); ucode 64-bit integer arithmetic is embedded as Nat with the
  masks the source itself applies (the source keeps every intermediate
  value non-negative and below 2^32 through the same masks).
-/

set_option maxRecDepth 200000
set_option maxHeartbeats 2000000
set_option linter.unnecessarySeqFocus false

namespace TwoFA

/-- Byte values of a string literal, used to write embedded strings. -/
def bytes (s : String) : List Nat := s.toList.map Char.toNat

/-! ## OTP engine, embedded from root/usr/libexec/generate_otp.uc -/

/-- From generate_otp.uc circular_shift: 32-bit left rotation of a value
below 2^32 (the source masks with 0xFFFFFFFF). -/
def circular_shift (val shift : Nat) : Nat :=
  ((val <<< shift) ||| (val >>> (32 - shift))) &&& 0xFFFFFFFF

/-- From generate_otp.uc intToBin: big-endian 4-byte split of a 32-bit word. -/
def intToBin (n : Nat) : List Nat :=
  [(n >>> 24) &&& 0xff, (n >>> 16) &&& 0xff, (n >>> 8) &&& 0xff, n &&& 0xff]

/-- From generate_otp.uc create_base32_decode_table: A-Z and a-z map to
0..25, the digits 2..7 map to 26..31, every other byte is absent. -/
def base32_val (c : Nat) : Option Nat :=
  if 65 ≤ c ∧ c ≤ 90 then some (c - 65)
  else if 97 ≤ c ∧ c ≤ 122 then some (c - 97)
  else if 50 ≤ c ∧ c ≤ 55 then some (c - 50 + 26)
  else none

/-- Inner fold of decode_base32: state is (output bytes, bit buffer, bit
count); characters outside the table are skipped, as in the source loop. -/
def decode_base32_step (st : List Nat × Nat × Nat) (c : Nat) : List Nat × Nat × Nat :=
  match base32_val c with
  | none => st
  | some v =>
    let buffer := (st.2.1 <<< 5) ||| v
    let bits := st.2.2 + 5
    if 8 ≤ bits then (st.1 ++ [(buffer >>> (bits - 8)) &&& 0xff], buffer, bits - 8)
    else (st.1, buffer, bits)

/-- From generate_otp.uc decode_base32: strips padding and whitespace,
then packs 5-bit groups into bytes, silently skipping unknown bytes. -/
def decode_base32 (s : List Nat) : List Nat :=
  let clean := s.filter (fun c =>
    !(c == 61 || c == 32 || c == 9 || c == 10 || c == 13))
  (clean.foldl decode_base32_step ([], 0, 0)).1

/-- From generate_otp.uc calculate_sha1 padding: append 0x80, then
64 - ((len+8) % 64) zero bytes with len counted after the 0x80, then seven
zero bytes, then a single slot holding bit-length of the message. The
slot can exceed 255; the block packing below ORs it in unchanged, exactly
as the source does. -/
def sha1_pad (msg : List Nat) : List Nat :=
  let to_pad := 64 - ((msg.length + 1 + 8) % 64)
  msg ++ [0x80] ++ List.replicate to_pad 0 ++ List.replicate 7 0 ++ [msg.length * 8]

/-- From calculate_sha1: pack padded entries into big-endian 32-bit words,
four entries each, ORing the four entries of a word exactly as the source
packing loop does (the final entry may exceed 255 and is ORed unchanged). -/
def pack_words : List Nat → List Nat
  | b0 :: b1 :: b2 :: b3 :: rest =>
    ((b0 <<< 24) ||| (b1 <<< 16) ||| (b2 <<< 8) ||| b3) :: pack_words rest
  | _ => []

/-- Round function f of calculate_sha1. The source computes (~b) & d on
64-bit values; b and d are below 2^32, so this equals
(0xFFFFFFFF XOR b) & d, which is the form used here. -/
def sha1_f (j b c d : Nat) : Nat :=
  if j < 20 then (b &&& c) ||| ((0xFFFFFFFF ^^^ b) &&& d)
  else if j < 40 then b ^^^ c ^^^ d
  else if j < 60 then (b &&& c) ||| (b &&& d) ||| (c &&& d)
  else b ^^^ c ^^^ d

/-- Round constant k of calculate_sha1. -/
def sha1_k (j : Nat) : Nat :=
  if j < 20 then 0x5A827999
  else if j < 40 then 0x6ED9EBA1
  else if j < 60 then 0x8F1BBCDC
  else 0xCA62C1D6

/-- One round of the calculate_sha1 main loop on the running tuple
(a,b,c,d,e) with schedule word w. -/
def sha1_round (j w : Nat) (t : Nat × Nat × Nat × Nat × Nat) :
    Nat × Nat × Nat × Nat × Nat :=
  let temp := (circular_shift t.1 5 + sha1_f j t.2.1 t.2.2.1 t.2.2.2.1 +
    t.2.2.2.2 + sha1_k j + w) &&& 0xFFFFFFFF
  (temp, t.1, circular_shift t.2.1 30, t.2.2.1, t.2.2.2.1)

/-- Rounds 16..79 of calculate_sha1. The source materializes all 80
schedule words in an array; since word j depends only on words j-3, j-8,
j-14 and j-16, the schedule is realized here as a sliding window of the
16 preceding words, oldest first (so those four words sit at window
positions 13, 8, 2 and 0). The fuel argument counts remaining rounds. -/
def sha1_rounds_tail : Nat → List Nat → (Nat × Nat × Nat × Nat × Nat) → Nat →
    Nat × Nat × Nat × Nat × Nat
  | _, _, t, 0 => t
  | j, window, t, n + 1 =>
    let w := circular_shift
      ((window.getD 13 0) ^^^ (window.getD 8 0) ^^^
       (window.getD 2 0) ^^^ (window.getD 0 0)) 1
    sha1_rounds_tail (j + 1) (window.tail ++ [w]) (sha1_round j w t) n

/-- Rounds 0..15 of calculate_sha1, consuming the 16 packed block words
and accumulating them as the initial schedule window. -/
def sha1_rounds_head (j : Nat) (window : List Nat)
    (t : Nat × Nat × Nat × Nat × Nat) :
    List Nat → Nat × Nat × Nat × Nat × Nat
  | [] => sha1_rounds_tail j window t 64
  | w :: rest => sha1_rounds_head (j + 1) (window ++ [w]) (sha1_round j w t) rest

/-- One compression of calculate_sha1 over a block of 16 packed words,
starting from the running hash (h0,h1,h2,h3,h4). -/
def sha1_compress (h : Nat × Nat × Nat × Nat × Nat) (blk16 : List Nat) :
    Nat × Nat × Nat × Nat × Nat :=
  let r := sha1_rounds_head 0 [] h blk16
  ((h.1 + r.1) &&& 0xFFFFFFFF, (h.2.1 + r.2.1) &&& 0xFFFFFFFF,
   (h.2.2.1 + r.2.2.1) &&& 0xFFFFFFFF, (h.2.2.2.1 + r.2.2.2.1) &&& 0xFFFFFFFF,
   (h.2.2.2.2 + r.2.2.2.2) &&& 0xFFFFFFFF)

/-- Fold of sha1_compress over the packed words, 16 words per 64-entry
block as in the source outer loop (the padded length is a multiple of 64,
so the word list length is a multiple of 16). -/
def sha1_blocks (h : Nat × Nat × Nat × Nat × Nat) :
    List Nat → Nat × Nat × Nat × Nat × Nat
  | w0 :: w1 :: w2 :: w3 :: w4 :: w5 :: w6 :: w7 ::
    w8 :: w9 :: w10 :: w11 :: w12 :: w13 :: w14 :: w15 :: rest =>
    sha1_blocks (sha1_compress h
      [w0, w1, w2, w3, w4, w5, w6, w7, w8, w9, w10, w11, w12, w13, w14, w15]) rest
  | _ => h

/-- From generate_otp.uc calculate_sha1: pad, compress each 64-entry
block, and emit the five words big-endian. -/
def calculate_sha1 (msg : List Nat) : List Nat :=
  let st := sha1_blocks (0x67452301, 0xEFCDAB89, 0x98BADCFE, 0x10325476, 0xC3D2E1F0)
    (pack_words (sha1_pad msg))
  intToBin st.1 ++ intToBin st.2.1 ++ intToBin st.2.2.1 ++
    intToBin st.2.2.2.1 ++ intToBin st.2.2.2.2

/-- Key block of calculate_hmac_sha1: a key longer than 64 bytes is first
hashed; the block is then read at indexes 0..63. In the source the
explicit zero-padding loop runs only for keys of length at most 64, but
ucode reads of absent array entries yield null, which coerces to 0 in the
XOR below, so in both cases the block is the key (or its hash) extended
with zeros to 64 entries. -/
def hmac_key_block (key : List Nat) : List Nat :=
  let bk := if 64 < key.length then calculate_sha1 key else key
  (List.range 64).map (fun i => bk.getD i 0)

/-- From generate_otp.uc calculate_hmac_sha1. -/
def calculate_hmac_sha1 (key msg : List Nat) : List Nat :=
  let kb := hmac_key_block key
  let inner := calculate_sha1 ((kb.map (fun x => x ^^^ 0x36)) ++ msg)
  calculate_sha1 ((kb.map (fun x => x ^^^ 0x5c)) ++ inner)

/-- Counter bytes as built in generate_otp.uc test_totp: four zero bytes
followed by the big-endian low 32 bits of the counter. -/
def counter_bytes (counter : Nat) : List Nat :=
  [0, 0, 0, 0, (counter >>> 24) &&& 0xff, (counter >>> 16) &&& 0xff,
   (counter >>> 8) &&& 0xff, counter &&& 0xff]

/-- HOTP value as computed in generate_otp.uc test_totp: HMAC-SHA1 of the
8-byte big-endian counter, dynamic truncation (offset = low nibble of the
last digest byte, 4 bytes at that offset, mask to 31 bits), mod 10^6. -/
def hotp (secret : List Nat) (counter : Nat) : Nat :=
  let digest := calculate_hmac_sha1 secret (counter_bytes counter)
  let offset := (digest.getD 19 0) &&& 0xf
  let snum := (((digest.getD offset 0) <<< 24) ||| ((digest.getD (offset + 1) 0) <<< 16) |||
    ((digest.getD (offset + 2) 0) <<< 8) ||| (digest.getD (offset + 3) 0)) &&& 0x7fffffff
  snum % 10 ^ 6

/-- Modelled from the spec: the generate_otp.uc command-line entry point
(absent from the packaged sources, which hold the primitives and a test
harness) computes the TOTP counter as floor(unix_time / step) and
delegates to the HOTP computation. -/
def totp (secret : List Nat) (t step : Nat) : Nat :=
  hotp secret (t / step)

/-- Modelled from the spec: the generator prints the code zero-padded to
six digits (the %06d format of test_totp); these are the six ASCII digit
bytes of a value below 10^6. -/
def format06 (n : Nat) : List Nat :=
  [48 + n / 100000 % 10, 48 + n / 10000 % 10, 48 + n / 1000 % 10,
   48 + n / 100 % 10, 48 + n / 10 % 10, 48 + n % 10]

/-! ## Reference HMAC-SHA1, modelled from the spec

The spec demands byte-for-byte agreement with standard HMAC-SHA1. The
reference below follows the standard (RFC 2104 over FIPS 180 SHA-1,
message lengths below 2^29 bytes): minimal padding to 56 mod 64 after the
0x80 byte, then the bit length as eight big-endian bytes. It reuses the
compression function above, which matches the standard one. -/

/-- Modelled from the spec: standard SHA-1 padding (minimal zero fill). -/
def spec_sha1_pad (msg : List Nat) : List Nat :=
  let z := (64 - ((msg.length + 1 + 8) % 64)) % 64
  msg ++ [0x80] ++ List.replicate z 0 ++ List.replicate 4 0 ++ intToBin (msg.length * 8)

/-- Modelled from the spec: standard SHA-1. -/
def spec_sha1 (msg : List Nat) : List Nat :=
  let st := sha1_blocks (0x67452301, 0xEFCDAB89, 0x98BADCFE, 0x10325476, 0xC3D2E1F0)
    (pack_words (spec_sha1_pad msg))
  intToBin st.1 ++ intToBin st.2.1 ++ intToBin st.2.2.1 ++
    intToBin st.2.2.2.1 ++ intToBin st.2.2.2.2

/-- Modelled from the spec: standard HMAC-SHA1 key block (hash keys longer
than the 64-byte block, zero-extend to the block size). -/
def spec_key_block (key : List Nat) : List Nat :=
  let bk := if 64 < key.length then spec_sha1 key else key
  (List.range 64).map (fun i => bk.getD i 0)

/-- Modelled from the spec: standard HMAC-SHA1. -/
def spec_hmac_sha1 (key msg : List Nat) : List Nat :=
  let kb := spec_key_block key
  let inner := spec_sha1 ((kb.map (fun x => x ^^^ 0x36)) ++ msg)
  spec_sha1 ((kb.map (fun x => x ^^^ 0x5c)) ++ inner)

/-! ## Shared helpers of the rpcd service and the auth plugin -/

/-- From 2fa.uc constant_time_compare: length check, then an OR-fold of
the XORs of corresponding bytes. -/
def constant_time_compare (a b : List Nat) : Bool :=
  if a.length ≠ b.length then false
  else ((a.zip b).foldl (fun r p => r ||| (p.1 ^^^ p.2)) 0) == 0

/-- Whitespace bytes removed by ucode trim. -/
def isSpaceByte (c : Nat) : Bool := c == 32 || c == 9 || c == 10 || c == 13

/-- ucode trim on byte lists. -/
def trimBytes (s : List Nat) : List Nat :=
  ((s.dropWhile isSpaceByte).reverse.dropWhile isSpaceByte).reverse

/-- Byte of the character class [a-zA-Z0-9]. -/
def is_alnum_byte (c : Nat) : Bool :=
  (48 ≤ c && c ≤ 57) || (65 ≤ c && c ≤ 90) || (97 ≤ c && c ≤ 122)

/-- From 2fa.uc sanitize_username: the username must be a non-empty run
of bytes matching [a-zA-Z0-9_.-]. -/
def sanitize_ok (username : List Nat) : Bool :=
  !(username == []) &&
    username.all (fun c => is_alnum_byte c || c == 95 || c == 46 || c == 45)

/-! ## Backup code manager, embedded from rpcd 2fa.uc -/

/-- From 2fa.uc backup_code_hash. The source renders the two 32-bit words
h1 and (final XOR h2) as a 16-hex-digit string; that rendering is an
injective image of the 64-bit value h1 * 2^32 + (final XOR h2), which is
the value used here. -/
def backup_code_hash (s : List Nat) : Nat :=
  let h1 := s.foldl (fun h c => ((h ^^^ c) * 0x01000193) &&& 0xFFFFFFFF) 0x811c9dc5
  let h2 := (s.foldl (fun (p : Nat × Nat) c =>
      let h := p.1 ^^^ ((c <<< (p.2 % 24)) ||| (c >>> (32 - (p.2 % 24))))
      (((h <<< 5) + h + c) &&& 0xFFFFFFFF, p.2 + 1)) (0x01000193, 0)).1
  let fin0 := (h1 ^^^ (h2 >>> 16) ^^^ (h2 <<< 16)) &&& 0xFFFFFFFF
  let fin := fin0 ^^^ (h1 >>> 8)
  (h1 &&& 0xFFFFFFFF) * 2 ^ 32 + ((fin ^^^ h2) &&& 0xFFFFFFFF)

/-- ASCII uppercasing of one byte, as ucode uc does per character. -/
def uc_byte (c : Nat) : Nat := if 97 ≤ c ∧ c ≤ 122 then c - 32 else c

/-- From 2fa.uc verify_backup_code normalization: uppercase, drop every
dash, and re-insert the dash after four characters when eight remain. -/
def normalize_code (code : List Nat) : List Nat :=
  let c := (code.map uc_byte).filter (fun b => !(b == 45))
  if c.length == 8 then c.take 4 ++ [45] ++ c.drop 4 else c

/-- The scan of 2fa.uc verify_backup_code: find the first stored entry
equal to the submitted hash and return the stored list rewritten without
exactly that entry (the source deletes the option and re-appends every
other entry in order), or none when no entry matches. -/
def verify_backup_code_loop (code_hash : Nat) : List Nat → Option (List Nat)
  | [] => none
  | s :: rest =>
    if s == code_hash then some rest
    else
      match verify_backup_code_loop code_hash rest with
      | some rest2 => some (s :: rest2)
      | none => none

/-- From 2fa.uc verify_backup_code. Stored entries are modelled as the
64-bit hash values whose hex rendering the source stores; the rendering
is injective, so the constant-time string comparison of the source is
equality of these values, and the guard for empty-string entries never
fires on hash entries. -/
def verify_backup_code (stored : List Nat) (code : List Nat) : Bool × List Nat :=
  let code_hash := backup_code_hash (normalize_code code)
  match verify_backup_code_loop code_hash stored with
  | some l => (true, l)
  | none => (false, stored)

/-! ## Rate limiter, embedded from rpcd 2fa.uc -/

/-- Rate limit settings read by check_rate_limit: the enabled flag and
the three numeric settings (max attempts, window seconds, lockout
seconds). -/
structure RLConfig where
  enabled : Bool
  max_attempts : Nat
  window : Nat
  lockout : Nat
deriving DecidableEq

/-- One entry of the rate limit state file: the recorded failure
timestamps and the lockout expiry (0 when not locked). -/
structure IpState where
  attempts : List Nat
  locked_until : Nat
deriving DecidableEq

/-- Result triple of check_rate_limit. -/
structure RLResult where
  allowed : Bool
  remaining : Int
  locked_until : Nat
deriving DecidableEq

/-- From 2fa.uc check_rate_limit, as a pure function of the settings, the
entry of the calling address (none when the state file has no entry) and
the current time. The returned entry is the state the call leaves behind
for that address: the locked-out early return does not write the file,
the other enabled paths do. The window comparison attempt > now - window
is ucode signed arithmetic, embedded over Int. -/
def check_rate_limit (cfg : RLConfig) (entry : Option IpState) (now : Nat) :
    RLResult × Option IpState :=
  if !cfg.enabled then (⟨true, -1, 0⟩, entry)
  else
    let ip0 := entry.getD ⟨[], 0⟩
    if now < ip0.locked_until then (⟨false, 0, ip0.locked_until⟩, entry)
    else
      let recent := ip0.attempts.filter
        (fun (a : Nat) => decide ((now : Int) - (cfg.window : Int) < (a : Int)))
      let remaining : Int := (cfg.max_attempts : Int) - recent.length
      if remaining ≤ 0 then
        (⟨false, 0, now + cfg.lockout⟩, some ⟨[], now + cfg.lockout⟩)
      else
        (⟨true, remaining, 0⟩, some ⟨recent, ip0.locked_until⟩)

/-- From 2fa.uc record_failed_attempt: append the current time to the
entry of the address, creating the entry when absent; no-op when rate
limiting is disabled. -/
def record_failed_attempt (cfg : RLConfig) (entry : Option IpState) (now : Nat) :
    Option IpState :=
  if !cfg.enabled then entry
  else
    let ip0 := entry.getD ⟨[], 0⟩
    some ⟨ip0.attempts ++ [now], ip0.locked_until⟩

/-! ## IP allowlist matcher, embedded from rpcd 2fa.uc -/

/-- ucode split on a separator byte, keeping empty segments. -/
def splitByte (sep : Nat) : List Nat → List (List Nat)
  | [] => [[]]
  | c :: cs =>
    let r := splitByte sep cs
    if c == sep then [] :: r else (c :: r.headD []) :: r.tail

/-- The IPv4 shape test of ip_in_cidr, the regex of four 1-3 digit runs
separated by dots. -/
def ipv4_format (s : List Nat) : Bool :=
  let ps := splitByte 46 s
  ps.length == 4 && ps.all (fun p =>
    decide (1 ≤ p.length) && decide (p.length ≤ 3) && p.all (fun c => 48 ≤ c && c ≤ 57))

/-- ucode int() on the digit strings the matcher feeds it: the value of
the maximal leading digit run. -/
def uc_int_aux : List Nat → Nat → Nat
  | [], acc => acc
  | c :: cs, acc => if 48 ≤ c ∧ c ≤ 57 then uc_int_aux cs (acc * 10 + (c - 48)) else acc

/-- ucode int() of a byte list (non-negative numeric strings). -/
def uc_int (s : List Nat) : Nat := uc_int_aux s 0

/-- Pack the four dotted octet strings into the 32-bit integer the source
builds with shifts and ORs. -/
def pack_ipv4 (ps : List (List Nat)) : Nat :=
  ((uc_int (ps.getD 0 [])) <<< 24) ||| ((uc_int (ps.getD 1 [])) <<< 16) |||
  ((uc_int (ps.getD 2 [])) <<< 8) ||| (uc_int (ps.getD 3 []))

/-- From 2fa.uc ip_in_cidr: split the entry on the slash; a non-IPv4
address falls back to exact equality with the network part; otherwise
compare the masked 32-bit addresses. The mask shift is meaningful for the
0..32 bit counts that is_valid_ip admits into the allowlist. -/
def ip_in_cidr (ip cidr : List Nat) : Bool :=
  let parts := splitByte 47 cidr
  let network_ip := parts.headD []
  let pfx := if 1 < parts.length then uc_int (parts.getD 1 []) else 32
  if !ipv4_format ip then ip == network_ip
  else if !ipv4_format network_ip then false
  else
    let ip_int := pack_ipv4 (splitByte 46 ip)
    let net_int := pack_ipv4 (splitByte 46 network_ip)
    let mask := if 0 < pfx then (0xFFFFFFFF <<< (32 - pfx)) &&& 0xFFFFFFFF else 0
    (ip_int &&& mask) == (net_int &&& mask)

/-- From 2fa.uc is_ip_whitelisted: nothing matches when the allowlist
feature is off; otherwise the address matches the first non-empty entry
that either contains a slash and matches as CIDR, or equals the address
literally. -/
def is_ip_whitelisted (wl_enabled : Bool) (entries : List (List Nat)) (ip : List Nat) : Bool :=
  wl_enabled && entries.any (fun e =>
    !(e == []) && (if e.contains 47 then ip_in_cidr ip e else ip == e))

/-- Decimal digits of a number as ASCII bytes (for writing the dotted
addresses of the allowlist claims); fueled to stay structural. -/
def natToBytesAux : Nat → Nat → List Nat
  | 0, _ => []
  | fuel + 1, n => if n < 10 then [48 + n] else natToBytesAux fuel (n / 10) ++ [48 + n % 10]

/-- Decimal ASCII rendering of a Nat. -/
def natToBytes (n : Nat) : List Nat := natToBytesAux (n + 1) n

/-! ## Verification orchestrator, embedded from rpcd 2fa.uc verifyOTP -/

/-- Per-principal configuration section read by the verifier: the base32
key (the empty list embeds an absent or empty key), the type option, the
step option (ucode int() of the stored string, over Int since a stored
string can parse negative), the HOTP counter, and the stored backup code
hashes. -/
structure UserCfg where
  key : List Nat
  typeCfg : Option (List Nat)
  stepCfg : Option Int
  counter : Nat
  backup_codes : List Nat
deriving DecidableEq

/-- Global settings section read by the verifier. -/
structure GlobalCfg where
  enabled : Bool
  wl_enabled : Bool
  whitelist : List (List Nat)
  rl : RLConfig
  min_valid : Option Int
deriving DecidableEq

/-- Result object of verifyOTP: the verdict and the optional flags the
source attaches. -/
structure VerifyOut where
  result : Bool
  rate_limited : Bool
  whitelisted : Bool
  backup_code_used : Bool
  invalid_backup_code : Bool
  locked_until : Nat
deriving DecidableEq

/-- From rpcd verifyOTP lines 578-579: step defaults to 30 when the
option is absent and a non-positive parsed value is replaced by 30, so
the effective step is always positive. -/
def effStep (cfg : Option Int) : Nat :=
  let s := cfg.getD 30
  if s ≤ 0 then 30 else s.toNat

/-- Modelled from the spec: the generate_otp.uc entry point invoked with
--no-increment prints the code for the stored HOTP counter, zero-padded
to six digits, without mutating the counter. -/
def generate_hotp (key : List Nat) (counter : Nat) : List Nat :=
  format06 (hotp (decode_base32 key) counter)

/-- Modelled from the spec: invoked with --time=t the generator computes
the TOTP counter floor(t / step) from the configured step and prints the
six-digit code. -/
def generate_totp (key : List Nat) (t step : Nat) : List Nat :=
  format06 (totp (decode_base32 key) t step)

/-- From rpcd verifyOTP lines 575-603: the TOTP branch checks the window
offsets 0, -1, +1 in that order, comparing the submitted bytes against
the generated code of time now + offset * step with the constant-time
comparison. Time is the non-negative ucode time(); on the claims domain
now is at least step, where Nat subtraction agrees with the signed
source arithmetic. -/
def verifyTOTP (key : List Nat) (stepCfg : Option Int) (otp : List Nat) (now : Nat) : Bool :=
  let step := effStep stepCfg
  constant_time_compare (generate_totp key now step) otp ||
  constant_time_compare (generate_totp key (now - step) step) otp ||
  constant_time_compare (generate_totp key (now + step) step) otp

/-- From rpcd verifyOTP lines 551-574: the HOTP branch generates the code
of the current counter without incrementing, and only a match advances
the stored counter, by exactly one; every other per-principal field is
left as it was. -/
def hotp_branch (u : UserCfg) (otp : List Nat) : Bool × UserCfg :=
  if constant_time_compare (generate_hotp u.key u.counter) otp then
    (true, ⟨u.key, u.typeCfg, u.stepCfg, u.counter + 1, u.backup_codes⟩)
  else (false, u)

/-- The backup code shape test of verifyOTP line 534, the regex of two
alphanumeric quadruples with an optional dash between them. -/
def backup_format (s : List Nat) : Bool :=
  (s.length == 8 && s.all is_alnum_byte) ||
  (s.length == 9 && (s.take 4).all is_alnum_byte && s.getD 4 0 == 45 &&
    (s.drop 5).all is_alnum_byte)

/-- OTP-engine tail of verifyOTP (lines 548-603): dispatch on the type
option (anything but hotp takes the TOTP branch), clear the rate limit
entry of a tracked address on success, record a failure otherwise. -/
def verifyOTP_engine (g : GlobalCfg) (u : UserCfg) (rl1 : Option IpState)
    (client_ip otp : List Nat) (now : Nat) : VerifyOut × UserCfg × Option IpState :=
  if u.typeCfg.getD (bytes "totp") == bytes "hotp" then
    let hb := hotp_branch u otp
    if hb.1 then
      (⟨true, false, false, false, false, 0⟩, hb.2, if !(client_ip == []) then none else rl1)
    else
      (⟨false, false, false, false, false, 0⟩, u,
        if !(client_ip == []) then record_failed_attempt g.rl rl1 now else rl1)
  else
    if verifyTOTP u.key u.stepCfg otp now then
      (⟨true, false, false, false, false, 0⟩, u, if !(client_ip == []) then none else rl1)
    else
      (⟨false, false, false, false, false, 0⟩, u,
        if !(client_ip == []) then record_failed_attempt g.rl rl1 now else rl1)

/-- Code-handling tail of verifyOTP (lines 532-603): a submission flagged
as, or shaped like, a backup code is tried against the stored hashes
first; a backup success consumes the matched hash and clears the rate
limit entry of a tracked address; an explicit backup attempt stops on a
miss, otherwise the engine branch runs. -/
def verifyOTP_code (g : GlobalCfg) (u : UserCfg) (rl1 : Option IpState)
    (client_ip otp : List Nat) (is_backup : Bool) (now : Nat) :
    VerifyOut × UserCfg × Option IpState :=
  if is_backup || backup_format otp then
    let br := verify_backup_code u.backup_codes otp
    if br.1 then
      (⟨true, false, false, true, false, 0⟩,
        ⟨u.key, u.typeCfg, u.stepCfg, u.counter, br.2⟩,
        if !(client_ip == []) then none else rl1)
    else if is_backup then
      (⟨false, false, false, false, true, 0⟩, u,
        if !(client_ip == []) then record_failed_attempt g.rl rl1 now else rl1)
    else verifyOTP_engine g u rl1 client_ip otp now
  else verifyOTP_engine g u rl1 client_ip otp now

/-- From rpcd verifyOTP (lines 482-604), as a pure transition on the
per-principal section and the rate limit entry of the calling address.
The checks run in source order: username sanitization, global enable,
configured key, allowlist bypass, rate limit (only for a non-empty
address), empty submission, then the code branches on the trimmed
submission. An empty client address skips every rate limit interaction. -/
def verifyOTP (g : GlobalCfg) (u : UserCfg) (rl : Option IpState)
    (username client_ip otp0 : List Nat) (is_backup : Bool) (now : Nat) :
    VerifyOut × UserCfg × Option IpState :=
  if !(sanitize_ok username) then (⟨false, false, false, false, false, 0⟩, u, rl)
  else if !g.enabled then (⟨true, false, false, false, false, 0⟩, u, rl)
  else if u.key == [] then (⟨true, false, false, false, false, 0⟩, u, rl)
  else if !(client_ip == []) && is_ip_whitelisted g.wl_enabled g.whitelist client_ip then
    (⟨true, false, true, false, false, 0⟩, u, rl)
  else
    let rc := if !(client_ip == []) then check_rate_limit g.rl rl now else (⟨true, -1, 0⟩, rl)
    if !rc.1.allowed then
      (⟨false, true, false, false, false, rc.1.locked_until⟩, u, rc.2)
    else if otp0 == [] then
      (⟨false, false, false, false, false, 0⟩, u,
        if !(client_ip == []) then record_failed_attempt g.rl rc.2 now else rc.2)
    else
      verifyOTP_code g u rc.2 client_ip (trimBytes otp0) is_backup now

/-! ## Enablement check, embedded from rpcd 2fa.uc isEnabled -/

/-- Result object of isEnabled. -/
structure EnabledOut where
  enabled : Bool
  whitelisted : Bool
  time_not_calibrated : Bool
deriving DecidableEq

/-- From 2fa.uc check_time_calibration: the minimum valid time option
defaults to the built-in epoch 1767225600. -/
def min_valid_time (cfg : Option Int) : Int := cfg.getD 1767225600

/-- From 2fa.uc check_time_calibration: the clock is calibrated when the
current time has reached the minimum valid time. -/
def calibrated (cfg : Option Int) (now : Nat) : Bool := min_valid_time cfg ≤ (now : Int)

/-- From rpcd 2fa.uc isEnabled (lines 416-467): sanitization, global
enable and key checks, allowlist bypass, then — for the TOTP type only —
the calibration guard, which reports the factor as disabled with the
time_not_calibrated flag; the HOTP type skips the guard. -/
def isEnabled (g : GlobalCfg) (u : UserCfg) (username client_ip : List Nat) (now : Nat) :
    EnabledOut :=
  if !(sanitize_ok username) then ⟨false, false, false⟩
  else if !g.enabled then ⟨false, false, false⟩
  else if u.key == [] then ⟨false, false, false⟩
  else if !(client_ip == []) && is_ip_whitelisted g.wl_enabled g.whitelist client_ip then
    ⟨false, true, false⟩
  else if u.typeCfg.getD (bytes "totp") == bytes "totp" then
    if !(calibrated g.min_valid now) then ⟨false, false, true⟩
    else ⟨true, false, false⟩
  else ⟨true, false, false⟩

/-! ## The auth.d plugin variant of the step selection -/

/-- From auth.d/2fa.uc verify_otp line 103: the step is int() of the
stored option, defaulting to 30; this variant has no non-positive
normalization. -/
def authd_step (cfg : Option Int) : Int := cfg.getD 30

/-- From auth.d/2fa.uc verify_otp line 108: the checked window time is
now + offset * step with the unnormalized step. -/
def authd_check_time (now offset : Int) (cfg : Option Int) : Int :=
  now + offset * authd_step cfg

/-! ## Helper lemmas -/

lemma lor_eq_zero_iff (a b : Nat) : a ||| b = 0 ↔ a = 0 ∧ b = 0 := by
  constructor
  · intro h
    refine ⟨Nat.eq_of_testBit_eq fun i => ?_, Nat.eq_of_testBit_eq fun i => ?_⟩ <;>
      have hi := congrArg (fun n => Nat.testBit n i) h <;>
      simp only [Nat.testBit_lor, Nat.zero_testBit, Bool.or_eq_false_iff] at hi <;>
      simp [hi.1, hi.2]
  · rintro ⟨rfl, rfl⟩; rfl

lemma ct_fold_zero (l : List (Nat × Nat)) (r : Nat) :
    (l.foldl (fun r p => r ||| (p.1 ^^^ p.2)) r = 0) ↔
      (r = 0 ∧ ∀ p ∈ l, p.1 = p.2) := by
  induction l generalizing r with
  | nil => simp
  | cons p l ih =>
    simp only [List.foldl_cons, ih, lor_eq_zero_iff, Nat.xor_eq_zero, List.mem_cons]
    constructor
    · rintro ⟨⟨h0, hp⟩, hl⟩
      exact ⟨h0, fun q hq => hq.elim (fun e => e ▸ hp) (hl q)⟩
    · rintro ⟨h0, hall⟩
      exact ⟨⟨h0, hall p (Or.inl rfl)⟩, fun q hq => hall q (Or.inr hq)⟩

lemma zip_eq_iff : ∀ a b : List Nat, a.length = b.length →
    ((∀ p ∈ a.zip b, p.1 = p.2) ↔ a = b)
  | [], [], _ => by simp
  | [], _ :: _, h => by simp at h
  | _ :: _, [], h => by simp at h
  | x :: xs, y :: ys, h => by
    have hlen : xs.length = ys.length := by simpa using h
    simp only [List.zip_cons_cons, List.mem_cons, List.cons.injEq]
    constructor
    · intro hp
      exact ⟨hp (x, y) (Or.inl rfl),
        (zip_eq_iff xs ys hlen).mp fun q hq => hp q (Or.inr hq)⟩
    · rintro ⟨rfl, rfl⟩ q hq
      rcases hq with h1 | h1
      · rw [h1]
      · exact ((zip_eq_iff xs xs rfl).mpr rfl) q h1

/-- The constant-time comparison of the source decides byte-list
equality. -/
lemma ct_true_iff (a b : List Nat) : constant_time_compare a b = true ↔ a = b := by
  unfold constant_time_compare
  by_cases hlen : a.length = b.length
  · rw [if_neg (fun hne => hne hlen), beq_iff_eq, ct_fold_zero]
    simp only [true_and]
    exact zip_eq_iff a b hlen
  · rw [if_pos hlen]
    constructor
    · intro h
      exact absurd h Bool.false_ne_true
    · intro h
      exact absurd (congrArg List.length h) hlen

lemma ct_eq_decide (a b : List Nat) : constant_time_compare a b = decide (a = b) := by
  by_cases h : a = b
  · rw [decide_eq_true h, (ct_true_iff a b).mpr h]
  · rw [decide_eq_false h]
    cases hb : constant_time_compare a b
    · rfl
    · exact absurd ((ct_true_iff a b).mp hb) h

/-! ## Claim theorems -/

/-- C1 (amended): the HOTP computation of the source reproduces the ten
published RFC 4226 codes for the 20-byte ASCII secret 12345678901234567890
(whose base32 form GEZDGNBVGY3TQOJQGEZDGNBVGY3TQOJQ the source decoder
maps back to that secret), and the embedded HMAC-SHA1 agrees byte-for-byte
with the seven standard RFC 2202 HMAC-SHA1 test vectors. -/
theorem hotp_hmac_standard_vectors :
    (List.range 10).map (hotp (bytes "12345678901234567890")) =
      [755224, 287082, 359152, 969429, 338314, 254676, 287922, 162583, 399871, 520489] ∧
    decode_base32 (bytes "GEZDGNBVGY3TQOJQGEZDGNBVGY3TQOJQ") =
      bytes "12345678901234567890" ∧
    calculate_hmac_sha1 (List.replicate 20 0x0b) (bytes "Hi There") =
      [0xb6, 0x17, 0x31, 0x86, 0x55, 0x05, 0x72, 0x64, 0xe2, 0x8b, 0xc0, 0xb6, 0xfb, 0x37, 0x8c, 0x8e, 0xf1, 0x46, 0xbe, 0x00] ∧
    calculate_hmac_sha1 (bytes "Jefe") (bytes "what do ya want for nothing?") =
      [0xef, 0xfc, 0xdf, 0x6a, 0xe5, 0xeb, 0x2f, 0xa2, 0xd2, 0x74, 0x16, 0xd5, 0xf1, 0x84, 0xdf, 0x9c, 0x25, 0x9a, 0x7c, 0x79] ∧
    calculate_hmac_sha1 (List.replicate 20 0xaa) (List.replicate 50 0xdd) =
      [0x12, 0x5d, 0x73, 0x42, 0xb9, 0xac, 0x11, 0xcd, 0x91, 0xa3, 0x9a, 0xf4, 0x8a, 0xa1, 0x7b, 0x4f, 0x63, 0xf1, 0x75, 0xd3] ∧
    calculate_hmac_sha1 ((List.range 25).map (fun i => i + 1)) (List.replicate 50 0xcd) =
      [0x4c, 0x90, 0x07, 0xf4, 0x02, 0x62, 0x50, 0xc6, 0xbc, 0x84, 0x14, 0xf9, 0xbf, 0x50, 0xc8, 0x6c, 0x2d, 0x72, 0x35, 0xda] ∧
    calculate_hmac_sha1 (List.replicate 20 0x0c) (bytes "Test With Truncation") =
      [0x4c, 0x1a, 0x03, 0x42, 0x4b, 0x55, 0xe0, 0x7f, 0xe7, 0xf2, 0x7b, 0xe1, 0xd5, 0x8b, 0xb9, 0x32, 0x4a, 0x9a, 0x5a, 0x04] ∧
    calculate_hmac_sha1 (List.replicate 80 0xaa)
        (bytes "Test Using Larger Than Block-Size Key - Hash Key First") =
      [0xaa, 0x4a, 0xe5, 0xe1, 0x52, 0x72, 0xd0, 0x0e, 0x95, 0x70, 0x56, 0x37, 0xce, 0x8a, 0x3b, 0x55, 0xed, 0x40, 0x21, 0x12] ∧
    calculate_hmac_sha1 (List.replicate 80 0xaa)
        (bytes "Test Using Larger Than Block-Size Key and Larger Than One Block-Size Data") =
      [0xe8, 0xe9, 0x9d, 0x0f, 0x45, 0x23, 0x7d, 0x78, 0x6d, 0x6b, 0xba, 0xa7, 0x96, 0x5c, 0x78, 0x08, 0xbb, 0xff, 0x1a, 0x91] := by
  refine ⟨?_, ?_, ?_, ?_, ?_, ?_, ?_, ?_, ?_⟩ <;> decide

/-- C1 counterexample: the embedded HMAC-SHA1 does not agree with
standard HMAC-SHA1 for every key and message. For the 3-byte key and a
55-byte message the inner SHA-1 input has length 119, which is 55 mod 64;
there the source padding appends a full extra zero block and the digest
diverges from the standard one. -/
theorem hmac_padding_divergence :
    calculate_hmac_sha1 (bytes "key") (List.replicate 55 97) ≠
      spec_hmac_sha1 (bytes "key") (List.replicate 55 97) := by
  decide

lemma effStep_some_pos (s : Nat) (h : 0 < s) : effStep (some (s : Int)) = s := by
  simp only [effStep, Option.getD_some]
  rw [if_neg (by omega)]
  omega

lemma generate_totp_eq (key : List Nat) (t s : Nat) :
    generate_totp key t s = generate_hotp key (t / s) := rfl

/-- C2 (amended): with a positive step s, TOTP verification at time t
succeeds exactly when the submitted code equals the generated code of one
of the three checked counters t/s, (t-s)/s, (t+s)/s; the code generated
at time T is accepted at T, T-s and T+s; and it is rejected at T+2s and
T-2s provided the generated codes at the other counters within the
checked windows (T/s plus or minus 1, 2, 3) differ from it — which can
fail for a secret whose HOTP codes collide across nearby counters. -/
theorem totp_window_amended (key : List Nat) (step T : Nat) (code : List Nat)
    (hstep : 0 < step) (hT : 3 * step ≤ T)
    (hcode : code = generate_totp key T step)
    (h1 : generate_hotp key (T / step + 1) ≠ code)
    (h2 : generate_hotp key (T / step + 2) ≠ code)
    (h3 : generate_hotp key (T / step + 3) ≠ code)
    (h4 : generate_hotp key (T / step - 1) ≠ code)
    (h5 : generate_hotp key (T / step - 2) ≠ code)
    (h6 : generate_hotp key (T / step - 3) ≠ code) :
    (∀ t otherCode, step ≤ t →
      (verifyTOTP key (some (step : Int)) otherCode t = true ↔
        (generate_hotp key (t / step) = otherCode ∨
         generate_hotp key ((t - step) / step) = otherCode ∨
         generate_hotp key ((t + step) / step) = otherCode))) ∧
    verifyTOTP key (some (step : Int)) code T = true ∧
    verifyTOTP key (some (step : Int)) code (T - step) = true ∧
    verifyTOTP key (some (step : Int)) code (T + step) = true ∧
    verifyTOTP key (some (step : Int)) code (T + 2 * step) = false ∧
    verifyTOTP key (some (step : Int)) code (T - 2 * step) = false := by
  have hs1 : step ≤ T := by omega
  have hiff : ∀ t otherCode,
      verifyTOTP key (some (step : Int)) otherCode t = true ↔
        (generate_hotp key (t / step) = otherCode ∨
         generate_hotp key ((t - step) / step) = otherCode ∨
         generate_hotp key ((t + step) / step) = otherCode) := by
    intro t c
    simp only [verifyTOTP, effStep_some_pos step hstep, generate_totp_eq,
      ct_eq_decide, Bool.or_eq_true, decide_eq_true_eq, or_assoc]
  -- counter identities for the five concrete check times
  have cTm : (T - step) + step = T := by omega
  have cTp : (T + step) - step = T := by omega
  have d1 : (T + 2 * step) / step = T / step + 2 := Nat.add_mul_div_right T 2 hstep
  have d2 : (T + 2 * step - step) / step = T / step + 1 := by
    rw [show T + 2 * step - step = T + 1 * step by omega]
    exact Nat.add_mul_div_right T 1 hstep
  have d3 : (T + 2 * step + step) / step = T / step + 3 := by
    rw [show T + 2 * step + step = T + 3 * step by omega]
    exact Nat.add_mul_div_right T 3 hstep
  have e1 : (T - 2 * step) / step = T / step - 2 := by
    have hx := Nat.add_mul_div_right (T - 2 * step) 2 hstep
    rw [show T - 2 * step + 2 * step = T by omega] at hx
    exact Nat.eq_sub_of_add_eq hx.symm
  have e2 : (T - 2 * step - step) / step = T / step - 3 := by
    have hx := Nat.add_mul_div_right (T - 2 * step - step) 3 hstep
    rw [show T - 2 * step - step + 3 * step = T by omega] at hx
    exact Nat.eq_sub_of_add_eq hx.symm
  have e3 : (T - 2 * step + step) / step = T / step - 1 := by
    have hx := Nat.add_mul_div_right (T - 2 * step + step) 1 hstep
    rw [show T - 2 * step + step + 1 * step = T by omega] at hx
    exact Nat.eq_sub_of_add_eq hx.symm
  refine ⟨fun t c _ => hiff t c, ?_, ?_, ?_, ?_, ?_⟩
  · exact (hiff T code).mpr (Or.inl (by rw [hcode, generate_totp_eq]))
  · refine (hiff (T - step) code).mpr (Or.inr (Or.inr ?_))
    rw [cTm, hcode, generate_totp_eq]
  · refine (hiff (T + step) code).mpr (Or.inr (Or.inl ?_))
    rw [cTp, hcode, generate_totp_eq]
  · rw [← Bool.not_eq_true, (hiff (T + 2 * step) code).not]
    push_neg
    exact ⟨by rw [d1]; exact h2, by rw [d2]; exact h1, by rw [d3]; exact h3⟩
  · rw [← Bool.not_eq_true, (hiff (T - 2 * step) code).not]
    push_neg
    exact ⟨by rw [e1]; exact h5, by rw [e2]; exact h6, by rw [e3]; exact h4⟩

/-- C2 counterexample: for the secret AACKQYI (base32 of the four bytes
0x00 0x04 0xA8 0x61) the HOTP codes of counters 100 and 102 coincide, so
the code generated at time 3000 with step 30 is still accepted at time
3000 + 2*30 — the claim that a code generated at T is rejected at T+2s
fails on this input. -/
theorem totp_window_counterexample :
    bytes "232660" = generate_totp (bytes "AACKQYI") 3000 30 ∧
    verifyTOTP (bytes "AACKQYI") (some 30) (bytes "232660") (3000 + 2 * 30) = true := by
  exact ⟨by decide, by decide⟩

/-- C2 witness: the amended theorem applied to the RFC 4226 secret with
step 30 at time 90. -/
theorem totp_window_witness :
    verifyTOTP (bytes "GEZDGNBVGY3TQOJQGEZDGNBVGY3TQOJQ") (some 30) (bytes "969429") 90 = true ∧
    verifyTOTP (bytes "GEZDGNBVGY3TQOJQGEZDGNBVGY3TQOJQ") (some 30) (bytes "969429") (90 - 30) = true ∧
    verifyTOTP (bytes "GEZDGNBVGY3TQOJQGEZDGNBVGY3TQOJQ") (some 30) (bytes "969429") (90 + 30) = true ∧
    verifyTOTP (bytes "GEZDGNBVGY3TQOJQGEZDGNBVGY3TQOJQ") (some 30) (bytes "969429") (90 + 2 * 30) = false ∧
    verifyTOTP (bytes "GEZDGNBVGY3TQOJQGEZDGNBVGY3TQOJQ") (some 30) (bytes "969429") (90 - 2 * 30) = false := by
  have h := totp_window_amended (bytes "GEZDGNBVGY3TQOJQGEZDGNBVGY3TQOJQ") 30 90
    (bytes "969429") (by decide) (by decide) (by decide) (by decide) (by decide)
    (by decide) (by decide) (by decide) (by decide)
  exact ⟨h.2.1, h.2.2.1, h.2.2.2.1, h.2.2.2.2.1, h.2.2.2.2.2⟩

/-- C3: HOTP verification compares the submission against the code of
the current counter only; a failed attempt leaves the whole per-principal
configuration unchanged, and a successful attempt increments the stored
counter by exactly 1 and changes nothing else. -/
theorem hotp_counter_frame (u : UserCfg) (otp : List Nat) :
    ((hotp_branch u otp).1 = true ↔ generate_hotp u.key u.counter = otp) ∧
    ((hotp_branch u otp).1 = false → (hotp_branch u otp).2 = u) ∧
    ((hotp_branch u otp).1 = true →
      (hotp_branch u otp).2 =
        ⟨u.key, u.typeCfg, u.stepCfg, u.counter + 1, u.backup_codes⟩) := by
  unfold hotp_branch
  rw [ct_eq_decide]
  by_cases h : generate_hotp u.key u.counter = otp
  · simp [h]
  · simp [h]

/-- C3 witness: the theorem applied to a concrete HOTP user at counter 0
with the matching submission. -/
theorem hotp_counter_frame_witness :
    (hotp_branch
        ⟨bytes "GEZDGNBVGY3TQOJQGEZDGNBVGY3TQOJQ", some (bytes "hotp"), none, 0, []⟩
        (bytes "755224")).1 = true :=
  (hotp_counter_frame
      ⟨bytes "GEZDGNBVGY3TQOJQGEZDGNBVGY3TQOJQ", some (bytes "hotp"), none, 0, []⟩
      (bytes "755224")).1.mpr (by decide)

lemma vbc_loop_eq (h : Nat) (l : List Nat) :
    verify_backup_code_loop h l = if h ∈ l then some (l.erase h) else none := by
  induction l with
  | nil => simp [verify_backup_code_loop]
  | cons x xs ih =>
    unfold verify_backup_code_loop
    by_cases hx : x = h
    · subst hx
      simp
    · rw [if_neg (by simp [hx]), ih]
      by_cases hm : h ∈ xs
      · rw [if_pos hm, if_pos (by simp [hx, hm]),
          List.erase_cons_tail (by simp [hx])]
      · rw [if_neg hm, if_neg (by
          simp only [List.mem_cons, not_or]
          exact ⟨fun e => hx e.symm, hm⟩)]

/-- The backup-code verifier succeeds exactly when the submitted hash is
stored, and then rewrites the list with the first matching entry
removed. -/
lemma verify_backup_code_eq (stored code : List Nat) :
    verify_backup_code stored code =
      if backup_code_hash (normalize_code code) ∈ stored
      then (true, stored.erase (backup_code_hash (normalize_code code)))
      else (false, stored) := by
  simp only [verify_backup_code, vbc_loop_eq]
  by_cases hm : backup_code_hash (normalize_code code) ∈ stored
  · rw [if_pos hm, if_pos hm]
  · rw [if_neg hm, if_neg hm]

/-- C4 (amended): a successful backup-code verification removes exactly
the first stored entry equal to the submitted hash, leaving the other
entries in order; a failed one changes nothing; and when the matched hash
occurs at most once in the stored list — as holds for any duplicate-free
list of hashes — the same code fails on a second verification from the
post-success state. -/
theorem backup_code_consume_once (stored : List Nat) (code : List Nat)
    (huniq : stored.count (backup_code_hash (normalize_code code)) ≤ 1) :
    ((verify_backup_code stored code).1 = false →
      (verify_backup_code stored code).2 = stored) ∧
    ((verify_backup_code stored code).1 = true ↔
      backup_code_hash (normalize_code code) ∈ stored) ∧
    ((verify_backup_code stored code).1 = true →
      (verify_backup_code stored code).2 =
        stored.erase (backup_code_hash (normalize_code code)) ∧
      (verify_backup_code (verify_backup_code stored code).2 code).1 = false) := by
  have hkey := verify_backup_code_eq stored code
  by_cases hm : backup_code_hash (normalize_code code) ∈ stored
  · have h2 : backup_code_hash (normalize_code code) ∉
        stored.erase (backup_code_hash (normalize_code code)) := by
      rw [← List.count_eq_zero, List.count_erase_self]
      omega
    rw [hkey, if_pos hm]
    refine ⟨by simp, by simp [hm], fun _ => ⟨rfl, ?_⟩⟩
    rw [verify_backup_code_eq, if_neg h2]
  · rw [hkey, if_neg hm]
    exact ⟨fun _ => rfl, by simp [hm], by simp⟩

/-- C4 counterexample: the claim fails as stated on a stored list in
which the same backup-code hash occurs twice — the success removes only
the first occurrence, and the same code verifies a second time from the
post-success state. -/
theorem backup_code_reuse_counterexample :
    (verify_backup_code
        [backup_code_hash (normalize_code (bytes "AAAA-AAAA")),
         backup_code_hash (normalize_code (bytes "AAAA-AAAA"))]
        (bytes "AAAA-AAAA")).1 = true ∧
    (verify_backup_code
        (verify_backup_code
          [backup_code_hash (normalize_code (bytes "AAAA-AAAA")),
           backup_code_hash (normalize_code (bytes "AAAA-AAAA"))]
          (bytes "AAAA-AAAA")).2
        (bytes "AAAA-AAAA")).1 = true := by
  exact ⟨by decide, by decide⟩

/-- C4 witness: the amended theorem applied to a two-entry stored list
holding the hash of the code AAAA-AAAA once. -/
theorem backup_code_consume_once_witness :
    (verify_backup_code
        [backup_code_hash (normalize_code (bytes "AAAA-AAAA")),
         backup_code_hash (normalize_code (bytes "BBBB-2222"))]
        (bytes "AAAA-AAAA")).1 = true :=
  (backup_code_consume_once
      [backup_code_hash (normalize_code (bytes "AAAA-AAAA")),
       backup_code_hash (normalize_code (bytes "BBBB-2222"))]
      (bytes "AAAA-AAAA") (by decide)).2.1.mpr (by decide)

/-- The locked-out early return of check_rate_limit leaves the stored
entry untouched. -/
lemma check_rate_limit_locked (cfg : RLConfig) (e : IpState) (now : Nat)
    (hen : cfg.enabled = true) (hlock : now < e.locked_until) :
    check_rate_limit cfg (some e) now = (⟨false, 0, e.locked_until⟩, some e) := by
  simp [check_rate_limit, hen, hlock]

/-- C5: the rate limit check. Disabled: allowed with remaining -1 and
locked_until 0, state untouched. Locked (expiry in the future): denied
without modifying the stored failure list. Expired or unlocked: stale
timestamps are pruned; a surviving count at or above the maximum locks
the entry (expiry now + lockout, failures cleared, persisted) and denies
with that timestamp; a count below the maximum allows with the remaining
budget. Scenario: with max 5 and window 60, five recorded failures inside
the window make the next check deny with a positive lockout timestamp,
and once the lockout has elapsed the check allows again with the full
budget of 5. -/
theorem rate_limit_check (cfg : RLConfig) (entry : Option IpState) (now : Nat) :
    (cfg.enabled = false →
      check_rate_limit cfg entry now = (⟨true, -1, 0⟩, entry)) ∧
    (cfg.enabled = true → ∀ e, entry = some e → now < e.locked_until →
      check_rate_limit cfg entry now = (⟨false, 0, e.locked_until⟩, entry)) ∧
    (cfg.enabled = true → ∀ e, entry = some e → e.locked_until ≤ now →
      cfg.max_attempts ≤ (e.attempts.filter
        (fun (a : Nat) => decide ((now : Int) - (cfg.window : Int) < (a : Int)))).length →
      check_rate_limit cfg entry now =
        (⟨false, 0, now + cfg.lockout⟩, some ⟨[], now + cfg.lockout⟩)) ∧
    (cfg.enabled = true → ∀ e, entry = some e → e.locked_until ≤ now →
      (e.attempts.filter
        (fun (a : Nat) => decide ((now : Int) - (cfg.window : Int) < (a : Int)))).length <
          cfg.max_attempts →
      check_rate_limit cfg entry now =
        (⟨true, (cfg.max_attempts : Int) - (e.attempts.filter
            (fun (a : Nat) => decide ((now : Int) - (cfg.window : Int) < (a : Int)))).length,
          0⟩,
         some ⟨e.attempts.filter
            (fun (a : Nat) => decide ((now : Int) - (cfg.window : Int) < (a : Int))),
          e.locked_until⟩)) ∧
    (∀ L t1 t2 t3 t4 t5 now1 now2 : Nat,
      0 < L →
      (now1 : Int) - 60 < t1 → (now1 : Int) - 60 < t2 → (now1 : Int) - 60 < t3 →
      (now1 : Int) - 60 < t4 → (now1 : Int) - 60 < t5 →
      now1 + L ≤ now2 →
      check_rate_limit ⟨true, 5, 60, L⟩
          (List.foldl (record_failed_attempt ⟨true, 5, 60, L⟩) none [t1, t2, t3, t4, t5])
          now1 =
        (⟨false, 0, now1 + L⟩, some ⟨[], now1 + L⟩) ∧
      0 < now1 + L ∧
      check_rate_limit ⟨true, 5, 60, L⟩ (some ⟨[], now1 + L⟩) now2 =
        (⟨true, 5, 0⟩, some ⟨[], now1 + L⟩)) := by
  refine ⟨?_, ?_, ?_, ?_, ?_⟩
  · intro h
    simp [check_rate_limit, h]
  · rintro hen e rfl hlock
    exact check_rate_limit_locked cfg e now hen hlock
  · rintro hen e rfl hle hmax
    simp only [check_rate_limit, hen, Bool.not_true, Bool.false_eq_true, if_false,
      Option.getD_some]
    rw [if_neg (by omega), if_pos (by omega)]
  · rintro hen e rfl hle hlt
    simp only [check_rate_limit, hen, Bool.not_true, Bool.false_eq_true, if_false,
      Option.getD_some]
    rw [if_neg (by omega), if_neg (by omega)]
  · intro L t1 t2 t3 t4 t5 now1 now2 hL h1 h2 h3 h4 h5 hnow2
    have hfold : List.foldl (record_failed_attempt ⟨true, 5, 60, L⟩) none
        [t1, t2, t3, t4, t5] = some ⟨[t1, t2, t3, t4, t5], 0⟩ := by
      simp [record_failed_attempt]
    refine ⟨?_, by omega, ?_⟩
    · rw [hfold]
      simp only [check_rate_limit, Bool.not_true, Bool.false_eq_true, if_false,
        Option.getD_some]
      rw [if_neg (by omega)]
      have hfil : [t1, t2, t3, t4, t5].filter
          (fun (a : Nat) => decide ((now1 : Int) - ((60 : Nat) : Int) < (a : Int))) =
          [t1, t2, t3, t4, t5] := by
        simp [List.filter, h1, h2, h3, h4, h5]
      rw [hfil]
      norm_num
    · simp only [check_rate_limit, Bool.not_true, Bool.false_eq_true, if_false,
        Option.getD_some]
      rw [if_neg (by omega)]
      simp

/-- C5 witness: the scenario conjunct applied at lockout 300, failures at
times 100..104, the locking check at time 120 and the post-lockout check
at time 420. -/
theorem rate_limit_check_witness :
    check_rate_limit ⟨true, 5, 60, 300⟩
        (List.foldl (record_failed_attempt ⟨true, 5, 60, 300⟩) none
          [100, 101, 102, 103, 104]) 120 =
      (⟨false, 0, 420⟩, some ⟨[], 420⟩) ∧
    check_rate_limit ⟨true, 5, 60, 300⟩ (some ⟨[], 420⟩) 420 =
      (⟨true, 5, 0⟩, some ⟨[], 420⟩) := by
  have h := (rate_limit_check ⟨true, 5, 60, 300⟩ none 0).2.2.2.2
    300 100 101 102 103 104 120 420 (by decide) (by decide) (by decide)
    (by decide) (by decide) (by decide) (by decide)
  exact ⟨h.1, h.2.2⟩

/-- C6: with 2FA enabled, a configured key, and a non-whitelisted tracked
source whose rate limit entry is locked (expiry in the future), the
verify operation returns the rate-limited failure with the lockout
timestamp for every submitted code — the correct one included — leaving
the per-principal state and the rate limit entry unchanged: the lockout
check runs strictly before any credential comparison. -/
theorem lockout_before_credentials (g : GlobalCfg) (u : UserCfg) (e : IpState)
    (username client_ip otp0 : List Nat) (is_backup : Bool) (now : Nat)
    (hsan : sanitize_ok username = true)
    (hen : g.enabled = true)
    (hkey : ¬u.key = [])
    (hip : ¬client_ip = [])
    (hwl : is_ip_whitelisted g.wl_enabled g.whitelist client_ip = false)
    (hrl : g.rl.enabled = true)
    (hlock : now < e.locked_until) :
    verifyOTP g u (some e) username client_ip otp0 is_backup now =
      (⟨false, true, false, false, false, e.locked_until⟩, u, some e) := by
  have hkey' : (u.key == []) = false := beq_eq_false_iff_ne.mpr hkey
  have hip' : (client_ip == []) = false := beq_eq_false_iff_ne.mpr hip
  simp [verifyOTP, hsan, hen, hkey', hip', hwl,
    check_rate_limit_locked g.rl e now hrl hlock]

/-- C6 witness: the theorem applied to a locked entry (expiry 1000) at
time 500 with the code that would verify at that time. -/
theorem lockout_before_credentials_witness :
    verifyOTP ⟨true, false, [], ⟨true, 5, 60, 300⟩, none⟩
        ⟨bytes "GEZDGNBVGY3TQOJQGEZDGNBVGY3TQOJQ", none, none, 0, []⟩
        (some ⟨[], 1000⟩) (bytes "root") (bytes "10.0.0.9") (bytes "969429") false 500 =
      (⟨false, true, false, false, false, 1000⟩,
       ⟨bytes "GEZDGNBVGY3TQOJQGEZDGNBVGY3TQOJQ", none, none, 0, []⟩,
       some ⟨[], 1000⟩) :=
  lockout_before_credentials ⟨true, false, [], ⟨true, 5, 60, 300⟩, none⟩
    ⟨bytes "GEZDGNBVGY3TQOJQGEZDGNBVGY3TQOJQ", none, none, 0, []⟩ ⟨[], 1000⟩
    (bytes "root") (bytes "10.0.0.9") (bytes "969429") false 500
    (by decide) rfl (by decide) (by decide) (by decide) rfl (by decide)

/-- C7: with 2FA enabled, a configured key and no allowlist bypass, an
uncalibrated clock (current time below the minimum valid time) makes the
enablement check report the factor as not required with the
time_not_calibrated flag for the TOTP type (configured or defaulted),
while the same configuration with the HOTP type stays enforced. -/
theorem totp_fail_open_uncalibrated (g : GlobalCfg)
    (key : List Nat) (sc : Option Int) (cnt : Nat) (bc : List Nat)
    (username client_ip : List Nat) (now : Nat)
    (hsan : sanitize_ok username = true)
    (hen : g.enabled = true)
    (hkey : ¬key = [])
    (hwl : client_ip = [] ∨ is_ip_whitelisted g.wl_enabled g.whitelist client_ip = false)
    (htime : (now : Int) < min_valid_time g.min_valid) :
    isEnabled g ⟨key, some (bytes "totp"), sc, cnt, bc⟩ username client_ip now =
      ⟨false, false, true⟩ ∧
    isEnabled g ⟨key, none, sc, cnt, bc⟩ username client_ip now =
      ⟨false, false, true⟩ ∧
    isEnabled g ⟨key, some (bytes "hotp"), sc, cnt, bc⟩ username client_ip now =
      ⟨true, false, false⟩ := by
  have hkey' : (key == []) = false := beq_eq_false_iff_ne.mpr hkey
  have hcal : calibrated g.min_valid now = false := by
    simp only [calibrated, decide_eq_false_iff_not, not_le]
    exact htime
  rcases hwl with h | h
  · subst h
    refine ⟨?_, ?_, ?_⟩ <;> simp [isEnabled, hsan, hen, hkey', hcal] <;> decide
  · refine ⟨?_, ?_, ?_⟩ <;> simp [isEnabled, hsan, hen, hkey', hcal, h] <;> decide

/-- C7 witness: the theorem applied at time 1000 (before the default
minimum valid time) for both configured types. -/
theorem totp_fail_open_uncalibrated_witness :
    isEnabled ⟨true, false, [], ⟨false, 5, 60, 300⟩, none⟩
        ⟨bytes "GEZDGNBVGY3TQOJQGEZDGNBVGY3TQOJQ", some (bytes "totp"), none, 0, []⟩
        (bytes "root") [] 1000 = ⟨false, false, true⟩ ∧
    isEnabled ⟨true, false, [], ⟨false, 5, 60, 300⟩, none⟩
        ⟨bytes "GEZDGNBVGY3TQOJQGEZDGNBVGY3TQOJQ", some (bytes "hotp"), none, 0, []⟩
        (bytes "root") [] 1000 = ⟨true, false, false⟩ := by
  have h := totp_fail_open_uncalibrated ⟨true, false, [], ⟨false, 5, 60, 300⟩, none⟩
    (bytes "GEZDGNBVGY3TQOJQGEZDGNBVGY3TQOJQ") none 0 [] (bytes "root") [] 1000
    (by decide) rfl (by decide) (Or.inl rfl) (by decide)
  exact ⟨h.1, h.2.2⟩

/-- C8: IPv4 CIDR matching of the allowlist is bit-exact 32-bit matching:
192.168.1.0/24 matches every address 192.168.1.1 .. 192.168.1.254 and
not 192.168.2.1; an exact literal entry matches only itself; and any
non-IPv4 address checked against a CIDR entry falls back to exact string
equality with the network part of the entry. -/
theorem allowlist_matching :
    (∀ x : Nat, x < 255 → 1 ≤ x →
      ip_in_cidr (bytes "192.168.1." ++ natToBytes x) (bytes "192.168.1.0/24") = true) ∧
    ip_in_cidr (bytes "192.168.2.1") (bytes "192.168.1.0/24") = false ∧
    (∀ ip, is_ip_whitelisted true [bytes "10.0.0.5"] ip = true ↔ ip = bytes "10.0.0.5") ∧
    (∀ ip cidr, ipv4_format ip = false →
      ip_in_cidr ip cidr = (ip == (splitByte 47 cidr).headD [])) := by
  refine ⟨by decide, by decide, ?_, ?_⟩
  · intro ip
    simp only [is_ip_whitelisted, List.any_cons, List.any_nil, Bool.or_false, Bool.true_and]
    rw [show ((bytes "10.0.0.5").contains 47) = false from by decide]
    rw [show ((bytes "10.0.0.5" : List Nat) == ([] : List Nat)) = false from by decide]
    simp [beq_iff_eq]
  · intro ip cidr hfmt
    simp [ip_in_cidr, hfmt]

/-- C8 witness: the theorem components applied to 192.168.1.1, to the
literal entry itself, and to an IPv6 address against a CIDR entry. -/
theorem allowlist_matching_witness :
    ip_in_cidr (bytes "192.168.1." ++ natToBytes 1) (bytes "192.168.1.0/24") = true ∧
    is_ip_whitelisted true [bytes "10.0.0.5"] (bytes "10.0.0.5") = true ∧
    ip_in_cidr (bytes "fe80::1") (bytes "fe80::/10") =
      ((bytes "fe80::1" : List Nat) == (splitByte 47 (bytes "fe80::/10")).headD []) :=
  ⟨allowlist_matching.1 1 (by decide) (by decide),
   (allowlist_matching.2.2.1 (bytes "10.0.0.5")).mpr rfl,
   allowlist_matching.2.2.2 (bytes "fe80::1") (bytes "fe80::/10") (by decide)⟩

/-- The effective step of the rpcd verifier is always positive. -/
lemma effStep_pos (c : Option Int) : 0 < effStep c := by
  cases c with
  | none => decide
  | some s =>
    simp only [effStep, Option.getD_some]
    split
    · decide
    · omega

/-- C9 (amended): in the rpcd verifier the effective step is positive —
an absent option defaults to 30 and a non-positive parsed value is
normalized to 30 before the windows are computed, and TOTP verification
uses exactly the normalized step. The auth.d plugin variant defaults an
absent option to 30 but uses a configured non-positive value as-is. -/
theorem step_normalization :
    effStep none = 30 ∧
    (∀ s : Int, s ≤ 0 → effStep (some s) = 30) ∧
    (∀ c : Option Int, 0 < effStep c) ∧
    (∀ key c otp now,
      verifyTOTP key c otp now = verifyTOTP key (some ((effStep c : Nat) : Int)) otp now) ∧
    (∀ c : Option Int, authd_step c = c.getD 30) := by
  refine ⟨by decide, ?_, effStep_pos, ?_, fun c => rfl⟩
  · intro s hs
    simp [effStep, hs]
  · intro key c otp now
    rw [verifyTOTP, verifyTOTP, effStep_some_pos _ (effStep_pos c)]

/-- C9 counterexample: the auth.d verifier uses a configured step of -5
as-is — the effective step is not positive and not normalized to 30, and
the checked window times move by -5. -/
theorem step_normalization_counterexample :
    authd_step (some (-5)) = -5 ∧
    ¬(0 < authd_step (some (-5))) ∧
    authd_check_time 1000 1 (some (-5)) = 995 := by
  exact ⟨rfl, by decide, by decide⟩

/-- C9 witness: the amended theorem applied to the parsed value -7. -/
theorem step_normalization_witness : effStep (some (-7)) = 30 :=
  step_normalization.2.1 (-7) (by decide)

/-- The engine tail of verifyOTP with an empty source address: the rate
limit entry passes through untouched, the verdict and principal state do
not depend on it, and the result is never rate-limited. -/
lemma engine_empty_ip (g : GlobalCfg) (u : UserCfg) (rl1 rl2 : Option IpState)
    (otp : List Nat) (now : Nat) :
    (verifyOTP_engine g u rl1 [] otp now).2.2 = rl1 ∧
    (verifyOTP_engine g u rl1 [] otp now).1 = (verifyOTP_engine g u rl2 [] otp now).1 ∧
    (verifyOTP_engine g u rl1 [] otp now).2.1 =
      (verifyOTP_engine g u rl2 [] otp now).2.1 ∧
    (verifyOTP_engine g u rl1 [] otp now).1.rate_limited = false := by
  unfold verifyOTP_engine
  simp only [show (([] : List Nat) == []) = true from rfl, Bool.not_true,
    Bool.false_eq_true, if_false]
  split_ifs <;> exact ⟨rfl, rfl, rfl, rfl⟩

/-- The code tail of verifyOTP with an empty source address: same frame
facts as for the engine tail. -/
lemma code_empty_ip (g : GlobalCfg) (u : UserCfg) (rl1 rl2 : Option IpState)
    (otp : List Nat) (ib : Bool) (now : Nat) :
    (verifyOTP_code g u rl1 [] otp ib now).2.2 = rl1 ∧
    (verifyOTP_code g u rl1 [] otp ib now).1 = (verifyOTP_code g u rl2 [] otp ib now).1 ∧
    (verifyOTP_code g u rl1 [] otp ib now).2.1 =
      (verifyOTP_code g u rl2 [] otp ib now).2.1 ∧
    (verifyOTP_code g u rl1 [] otp ib now).1.rate_limited = false := by
  unfold verifyOTP_code
  simp only [show (([] : List Nat) == []) = true from rfl, Bool.not_true,
    Bool.false_eq_true, if_false]
  split_ifs <;>
    first
      | exact ⟨rfl, rfl, rfl, rfl⟩
      | exact engine_empty_ip g u rl1 rl2 otp now

/-- C10: a verification request with an empty source address leaves the
rate limit entry exactly as it was, its verdict and the per-principal
state transition do not depend on the rate limit entry, and it is never
reported rate-limited. -/
theorem untracked_source_frame (g : GlobalCfg) (u : UserCfg) (rl rl2 : Option IpState)
    (username otp0 : List Nat) (ib : Bool) (now : Nat) :
    (verifyOTP g u rl username [] otp0 ib now).2.2 = rl ∧
    (verifyOTP g u rl username [] otp0 ib now).1 =
      (verifyOTP g u rl2 username [] otp0 ib now).1 ∧
    (verifyOTP g u rl username [] otp0 ib now).2.1 =
      (verifyOTP g u rl2 username [] otp0 ib now).2.1 ∧
    (verifyOTP g u rl username [] otp0 ib now).1.rate_limited = false := by
  unfold verifyOTP
  simp only [show (([] : List Nat) == []) = true from rfl, Bool.not_true,
    Bool.false_eq_true, if_false, Bool.false_and]
  split_ifs <;>
    first
      | exact ⟨rfl, rfl, rfl, rfl⟩
      | exact code_empty_ip g u rl rl2 (trimBytes otp0) ib now

end TwoFA
